import Mathlib

/-!
# Blayze-Whisper: the streaming transcript consumer of `src/App.jsx`

`App.jsx` holds two pieces of component state, `transcribing` and `transcripts`, and one
asynchronous function, `handleTranscribe`, which posts a request and then reads the response
body chunk by chunk, parsing each chunk as one JSON document and appending it to `transcripts`.

The embedding follows the function line by line.  An `async` function runs atomically between
two `await` points, so it is modelled by one step function per `await`:

* `begin`    : line 10, up to the suspension at `await fetch(...)` (line 12);
* `onFetch`  : the resumption from `await fetch(...)`, lines 12-18, up to the first
               `await reader.read()`;
* `onRead`   : the resumption from `await reader.read()`, lines 21-24, one turn of the loop;
* the `catch` block (line 27) and the `finally` block (line 29) close every path that leaves
  the `try`.

What the browser supplies (`fetch`, the stream reader, `TextDecoder`, `JSON.parse`) is input to
the model: the replies of the network are data, the two pure built-ins are parameters.
-/

namespace BlayzeWhisper

/-- Contents of the `Uint8Array` that `reader.read()` hands over, one number per byte. -/
abbrev Bytes := List Nat

/-- The two pure browser built-ins used on line 23 and line 24.  `decode` is
`new TextDecoder().decode(value)`, which never throws; `jsonParse` is `JSON.parse`, which
either returns a value or throws a `SyntaxError` (the `error` case, with its message). -/
structure Browser (Value : Type) where
  decode : Bytes → String
  jsonParse : String → Except String Value

/-- What can be thrown inside the `try` block of `handleTranscribe`. -/
inductive Thrown where
  /-- The promise of `fetch` rejected (line 12): a network failure. -/
  | fetchRejected (reason : String)
  /-- On line 18 `response.body` was `null`, so `.getReader()` raised a `TypeError`. -/
  | bodyIsNull
  /-- The promise of `reader.read()` rejected (line 21): the transport broke. -/
  | readRejected (reason : String)
  /-- On line 24 `JSON.parse` threw. -/
  | syntaxError (detail : String)
  deriving DecidableEq, Repr

/-- The state `handleTranscribe` acts on: the two `useState` cells it writes (lines 5-6) and
the error console it reports to (line 27).  `mediaUrl` (line 7) is never read or written by
`handleTranscribe` and is left out. -/
structure World (Value : Type) where
  transcribing : Bool
  transcripts : List Value
  console : List Thrown
  deriving DecidableEq, Repr

/-- The component state at mount: `useState(false)`, `useState([])`, nothing reported. -/
def World.init {Value : Type} : World Value :=
  { transcribing := false, transcripts := [], console := [] }

/-- Where one invocation of `handleTranscribe` is suspended. -/
inductive Pc where
  /-- Suspended at `await fetch(...)`, line 12. -/
  | awaitFetch
  /-- Suspended at `await reader.read()`, line 21. -/
  | awaitRead
  /-- The function has run through its `finally` block and returned. -/
  | returned
  deriving DecidableEq, Repr

/-- How `await fetch(...)` resumes.  `fetch` resolves for every HTTP status; it rejects only
when no response arrives.  `hasBody` is false when `response.body` is `null`. -/
inductive FetchReply where
  | rejected (reason : String)
  | response (status : Nat) (hasBody : Bool)
  deriving DecidableEq, Repr

/-- How `await reader.read()` resumes. -/
inductive ReadReply where
  /-- Resolved with `{ done: false, value }`. -/
  | chunk (value : Bytes)
  /-- Resolved with `{ done: true }`: the server closed the stream. -/
  | done
  /-- Rejected: the read failed. -/
  | rejected (reason : String)
  deriving DecidableEq, Repr

/-- The network as one invocation sees it: the reply to `fetch`, then the replies to the
successive `reader.read()` calls.  When the list runs out the next read stays pending. -/
structure Network where
  fetch : FetchReply
  reads : List ReadReply
  deriving DecidableEq, Repr

section Steps

variable {Value : Type}

/-- Line 10 and line 29: `setTranscribing(b)`. -/
def setTranscribing (b : Bool) (w : World Value) : World Value :=
  { w with transcribing := b }

/-- Line 24: `setTranscripts(prev => [...prev, parsed])`. -/
def appendTranscript (parsed : Value) (w : World Value) : World Value :=
  { w with transcripts := w.transcripts ++ [parsed] }

/-- Line 27: `console.error('Transcription error:', error)`. -/
def consoleError (e : Thrown) (w : World Value) : World Value :=
  { w with console := w.console ++ [e] }

/-- A throw inside `try`: the `catch` block (line 27), then the `finally` block (line 29). -/
def catchFinally (e : Thrown) (w : World Value) : World Value × Pc :=
  (setTranscribing false (consoleError e w), Pc.returned)

/-- Leaving `try` through the `break` of line 22: the `finally` block alone. -/
def finallyOnly (w : World Value) : World Value × Pc :=
  (setTranscribing false w, Pc.returned)

/-- Lines 10-12: the call sets the flag and suspends at `await fetch(...)`. -/
def begin (w : World Value) : World Value × Pc :=
  (setTranscribing true w, Pc.awaitFetch)

/-- Lines 12-21: resumption from `await fetch(...)`.  The response status is not looked at;
the reader is taken from `response.body` and the first read is awaited. -/
def onFetch (r : FetchReply) (w : World Value) : World Value × Pc :=
  match r with
  | FetchReply.rejected reason => catchFinally (Thrown.fetchRejected reason) w
  | FetchReply.response _ false => catchFinally Thrown.bodyIsNull w
  | FetchReply.response _ true => (w, Pc.awaitRead)

/-- Lines 21-25: resumption from `await reader.read()`, one turn of the `while (true)` loop. -/
def onRead (env : Browser Value) (r : ReadReply) (w : World Value) : World Value × Pc :=
  match r with
  | ReadReply.done => finallyOnly w
  | ReadReply.rejected reason => catchFinally (Thrown.readRejected reason) w
  | ReadReply.chunk value =>
    match env.jsonParse (env.decode value) with
    | Except.ok parsed => (appendTranscript parsed w, Pc.awaitRead)
    | Except.error detail => catchFinally (Thrown.syntaxError detail) w

/-- The `while (true)` loop of lines 20-25 run against the replies the reader gives.  It stops
at the first reply that leaves the loop; replies after that one are never asked for.  When the
replies run out the invocation is still suspended at line 21. -/
def readLoop (env : Browser Value) : List ReadReply → World Value → World Value × Pc
  | [], w => (w, Pc.awaitRead)
  | r :: rest, w =>
    match onRead env r w with
    | (w1, Pc.awaitRead) => readLoop env rest w1
    | ended => ended

/-- One invocation of `handleTranscribe` (lines 9-31) run on its own against a network. -/
def handleTranscribe (env : Browser Value) (net : Network) (w : World Value) :
    World Value × Pc :=
  match onFetch net.fetch (begin w).1 with
  | (w1, Pc.awaitRead) => readLoop env net.reads w1
  | ended => ended

/-- The states the loop passes through, one per reply consumed. -/
def readTrace (env : Browser Value) : List ReadReply → World Value → List (World Value × Pc)
  | [], _ => []
  | r :: rest, w =>
    match onRead env r w with
    | (w1, Pc.awaitRead) => (w1, Pc.awaitRead) :: readTrace env rest w1
    | ended => [ended]

/-- The states one invocation passes through: after line 10, after the reply to `fetch`, and
after each reply to `reader.read()`. -/
def runTrace (env : Browser Value) (net : Network) (w : World Value) :
    List (World Value × Pc) :=
  begin w ::
    (match onFetch net.fetch (begin w).1 with
     | (w1, Pc.awaitRead) => (w1, Pc.awaitRead) :: readTrace env net.reads w1
     | ended => [ended])

/-- A reply that makes the loop leave: the close, a failed read, or a chunk that
`JSON.parse` rejects. -/
def leavesLoop (env : Browser Value) : ReadReply → Bool
  | ReadReply.done => true
  | ReadReply.rejected _ => true
  | ReadReply.chunk value =>
    match env.jsonParse (env.decode value) with
    | Except.ok _ => false
    | Except.error _ => true

end Steps

/-! ## The session status of the specification

The code keeps no status value.  What an observer can tell apart is the flag `transcribing`
and whether the `catch` block reported an error during the run. -/

/-- The two invocations. -/
inductive CallId where
  | earlier
  | later
  deriving DecidableEq, Repr

/-- The shared component state and, per invocation, where it is suspended (`none` before it
has been called). -/
structure Sys (Value : Type) where
  world : World Value
  earlier : Option Pc
  later : Option Pc
  deriving DecidableEq, Repr

/-- What can happen next: a call of `handleTranscribe`, or the resumption of a suspended
invocation with the reply it was waiting for. -/
inductive Ev where
  | invoke (c : CallId)
  | fetchReply (c : CallId) (r : FetchReply)
  | readReply (c : CallId) (r : ReadReply)
  deriving DecidableEq, Repr

section Interleaving

variable {Value : Type}

/-- Where invocation `c` stands. -/
def Sys.pcOf (s : Sys Value) : CallId → Option Pc
  | CallId.earlier => s.earlier
  | CallId.later => s.later

/-- Invocation `c` has run a step that left the shared state at `r.1` and itself at `r.2`. -/
def Sys.advance (s : Sys Value) (c : CallId) (r : World Value × Pc) : Sys Value :=
  match c with
  | CallId.earlier => { s with world := r.1, earlier := some r.2 }
  | CallId.later => { s with world := r.1, later := some r.2 }

/-- One event.  An event that does not match where the invocation stands cannot occur and
leaves the state as it is.  Nothing in `handleTranscribe` looks at the other invocation. -/
def Sys.step (env : Browser Value) (s : Sys Value) : Ev → Sys Value
  | Ev.invoke c =>
    match s.pcOf c with
    | none => s.advance c (begin s.world)
    | some _ => s
  | Ev.fetchReply c r =>
    match s.pcOf c with
    | some Pc.awaitFetch => s.advance c (onFetch r s.world)
    | _ => s
  | Ev.readReply c r =>
    match s.pcOf c with
    | some Pc.awaitRead => s.advance c (onRead env r s.world)
    | _ => s

/-- A sequence of events, in the order they happen. -/
def Sys.run (env : Browser Value) (s : Sys Value) (evs : List Ev) : Sys Value :=
  evs.foldl (Sys.step env) s

/-- The component at mount, before any call. -/
def Sys.init : Sys Value :=
  { world := World.init, earlier := none, later := none }

end Interleaving

/-! ## A concrete browser for the examples

The wire format of the specification's examples: one object with the two string fields
`timestamp` and `text`, in that order, without white space or escapes. -/

/-- One transcript segment, as rendered on lines 66-67. -/
structure TranscriptSegment where
  timestamp : String
  text : String
  deriving DecidableEq, Repr

/-- Remove `lead` from the front of `cs`, when it is there. -/
def dropLead (lead cs : List Char) : Option (List Char) :=
  if lead.isPrefixOf cs then some (cs.drop lead.length) else none

/-- Reads one segment object from its characters. -/
def parseSegment (cs : List Char) : Except String TranscriptSegment :=
  match dropLead "\x7b\"timestamp\":\"".data cs with
  | none => Except.error "Unexpected token"
  | some r1 =>
    match dropLead "\",\"text\":\"".data (r1.dropWhile (fun c => c != '"')) with
    | none => Except.error "Unexpected token"
    | some r2 =>
      if r2.dropWhile (fun c => c != '"') = "\"\x7d".data then
        Except.ok
          { timestamp := String.mk (r1.takeWhile (fun c => c != '"')),
            text := String.mk (r2.takeWhile (fun c => c != '"')) }
      else Except.error "Unexpected end of JSON input"

/-- The bytes of a text of ASCII characters. -/
def asciiBytes (s : String) : Bytes :=
  s.data.map Char.toNat

/-- A browser for the examples: ASCII decoding and the segment reader above. -/
def sampleBrowser : Browser TranscriptSegment :=
  { decode := fun bytes => String.mk (bytes.map Char.ofNat),
    jsonParse := fun text => parseSegment text.data }

/-- The first example chunk of the specification. -/
def chunkHello : Bytes :=
  asciiBytes "\x7b\"timestamp\":\"00:01\",\"text\":\"hello\"\x7d"

/-- The second example chunk of the specification. -/
def chunkWorld : Bytes :=
  asciiBytes "\x7b\"timestamp\":\"00:02\",\"text\":\"world\"\x7d"

/-- The segment of the first example chunk. -/
def segHello : TranscriptSegment :=
  { timestamp := "00:01", text := "hello" }

/-- The segment of the second example chunk. -/
def segWorld : TranscriptSegment :=
  { timestamp := "00:02", text := "world" }

/-- The replies of a reader that delivers the given chunks one by one. -/
def deliver (chunks : List Bytes) : List ReadReply :=
  chunks.map ReadReply.chunk

/-- What line 23 and line 24 make of each chunk. -/
def parseAll {Value : Type} (env : Browser Value) (chunks : List Bytes) :
    List (Except String Value) :=
  chunks.map (fun c => env.jsonParse (env.decode c))

/-! ## Lemmas on the steps -/

section StepLemmas

variable {Value : Type} (env : Browser Value)

theorem onRead_chunk_ok {c : Bytes} {v : Value} (w : World Value)
    (h : env.jsonParse (env.decode c) = Except.ok v) :
    onRead env (ReadReply.chunk c) w = (appendTranscript v w, Pc.awaitRead) := by
  simp [onRead, h]

theorem readLoop_cons_await {r : ReadReply} {w w1 : World Value} (rest : List ReadReply)
    (h : onRead env r w = (w1, Pc.awaitRead)) :
    readLoop env (r :: rest) w = readLoop env rest w1 := by
  simp [readLoop, h]

/-- A turn of the loop either suspends at the next read or returns. -/
theorem onRead_pc (r : ReadReply) (w : World Value) :
    (onRead env r w).2 = (if leavesLoop env r then Pc.returned else Pc.awaitRead) := by
  cases r with
  | done => simp [onRead, leavesLoop, finallyOnly]
  | rejected reason => simp [onRead, leavesLoop, catchFinally]
  | chunk value =>
    cases h : env.jsonParse (env.decode value) <;> simp [onRead, leavesLoop, h, catchFinally]

/-- The loop consumes chunks that parse, appending what they parse to, and goes on. -/
theorem readLoop_deliver (chunks : List Bytes) (segs : List Value) (rest : List ReadReply)
    (w : World Value) (h : parseAll env chunks = segs.map Except.ok) :
    readLoop env (deliver chunks ++ rest) w
      = readLoop env rest { w with transcripts := w.transcripts ++ segs } := by
  induction chunks generalizing segs w with
  | nil =>
    cases segs with
    | nil => simp [deliver]
    | cons s ss => simp [parseAll] at h
  | cons c cs ih =>
    cases segs with
    | nil => simp [parseAll] at h
    | cons s ss =>
      simp only [parseAll, List.map_cons, List.cons.injEq] at h
      have hstep := onRead_chunk_ok env w h.1
      have := ih ss (appendTranscript s w) h.2
      simp only [deliver, List.map_cons, List.cons_append] at this ⊢
      rw [readLoop_cons_await env _ hstep, this]
      simp [appendTranscript]

/-- With a response that has a body, the run is the read loop started with the flag up. -/
theorem handleTranscribe_response (status : Nat) (reads : List ReadReply) (w : World Value) :
    handleTranscribe env { fetch := FetchReply.response status true, reads := reads } w
      = readLoop env reads (setTranscribing true w) := by
  simp [handleTranscribe, onFetch, begin]

theorem parseAll_length {chunks : List Bytes} {segs : List Value}
    (h : parseAll env chunks = segs.map Except.ok) : segs.length = chunks.length := by
  have := congrArg List.length h
  simpa [parseAll] using this.symm

theorem onRead_stays {r : ReadReply} (w : World Value) (h : leavesLoop env r = false) :
    onRead env r w = ((onRead env r w).1, Pc.awaitRead) := by
  have := onRead_pc env r w
  rw [h] at this
  exact Prod.ext rfl (by simpa using this)

theorem onRead_leaves {r : ReadReply} (w : World Value) (h : leavesLoop env r = true) :
    onRead env r w = ((onRead env r w).1, Pc.returned) := by
  have := onRead_pc env r w
  rw [h] at this
  exact Prod.ext rfl (by simpa using this)

/-- No turn of the loop takes anything away from the sequence. -/
theorem onRead_transcripts (r : ReadReply) (w : World Value) :
    w.transcripts <+: (onRead env r w).1.transcripts := by
  cases r with
  | done => simp [onRead, finallyOnly, setTranscribing]
  | rejected reason => simp [onRead, catchFinally, setTranscribing, consoleError]
  | chunk value =>
    cases h : env.jsonParse (env.decode value) <;>
      simp [onRead, h, catchFinally, setTranscribing, consoleError, appendTranscript]

/-- The reply to `fetch` leaves the sequence as it is. -/
theorem onFetch_transcripts (r : FetchReply) (w : World Value) :
    (onFetch r w).1.transcripts = w.transcripts := by
  match r with
  | FetchReply.rejected reason => simp [onFetch, catchFinally, setTranscribing, consoleError]
  | FetchReply.response _ false => simp [onFetch, catchFinally, setTranscribing, consoleError]
  | FetchReply.response _ true => simp [onFetch]

/-- Every state of the loop keeps the sequence the loop started from as a prefix. -/
theorem readTrace_keeps (reads : List ReadReply) (w : World Value) :
    ∀ p ∈ readTrace env reads w, w.transcripts <+: p.1.transcripts := by
  induction reads generalizing w with
  | nil => simp [readTrace]
  | cons r rest ih =>
    have hp := onRead_transcripts env r w
    cases hl : leavesLoop env r with
    | false =>
      rw [readTrace, onRead_stays env w hl]
      intro p hmem
      rcases List.mem_cons.mp hmem with rfl | hmem
      · exact hp
      · exact hp.trans (ih _ p hmem)
    | true =>
      rw [readTrace, onRead_leaves env w hl]
      intro p hmem
      rcases List.mem_singleton.mp hmem with rfl
      exact hp

end StepLemmas

/-! ## Runs on one invocation -/

section Runs

variable {Value : Type}

/-- C1. A session whose sequence is empty at the start, a response with a body, chunks that
each parse to a segment, then a clean close: the run returns with the sequence equal to the
list of parsed segments, in arrival order, as long as the list of chunks.  Nothing is dropped,
merged, reordered or deduplicated (equal segments stay apart, as the lengths show). -/
theorem handleTranscribe_delivers_all (env : Browser Value) (status : Nat)
    (chunks : List Bytes) (segs : List Value) (w : World Value)
    (hempty : w.transcripts = [])
    (hvalid : parseAll env chunks = segs.map Except.ok) :
    (handleTranscribe env
        { fetch := FetchReply.response status true,
          reads := deliver chunks ++ [ReadReply.done] } w).1.transcripts = segs
    ∧ (handleTranscribe env
        { fetch := FetchReply.response status true,
          reads := deliver chunks ++ [ReadReply.done] } w).1.transcripts.length
        = chunks.length
    ∧ (handleTranscribe env
        { fetch := FetchReply.response status true,
          reads := deliver chunks ++ [ReadReply.done] } w).2 = Pc.returned := by
  rw [handleTranscribe_response, readLoop_deliver env chunks segs _ _ hvalid]
  have hlen := parseAll_length env hvalid
  simp [readLoop, onRead, finallyOnly, setTranscribing, hempty, hlen]

/-- Witness of C1 on the example browser: three chunks, the first and the last equal. -/
theorem handleTranscribe_delivers_all_witness :
    (World.init : World TranscriptSegment).transcripts = []
    ∧ parseAll sampleBrowser [chunkHello, chunkWorld, chunkHello]
        = [segHello, segWorld, segHello].map Except.ok
    ∧ (handleTranscribe sampleBrowser
        { fetch := FetchReply.response 200 true,
          reads := deliver [chunkHello, chunkWorld, chunkHello] ++ [ReadReply.done] }
        World.init).1.transcripts = [segHello, segWorld, segHello] :=
  ⟨rfl, rfl,
    (handleTranscribe_delivers_all sampleBrowser 200 [chunkHello, chunkWorld, chunkHello]
      [segHello, segWorld, segHello] World.init rfl rfl).1⟩

/-- The sequence the run started from is a prefix of the sequence in every state of the run. -/
theorem runTrace_keeps (env : Browser Value) (net : Network) (w : World Value) :
    ∀ p ∈ runTrace env net w, w.transcripts <+: p.1.transcripts := by
  intro p hmem
  rw [runTrace] at hmem
  rcases List.mem_cons.mp hmem with rfl | hmem
  · simp [begin, setTranscribing]
  · have hf : (onFetch net.fetch (begin w).1).1.transcripts = w.transcripts := by
      rw [onFetch_transcripts]; simp [begin, setTranscribing]
    cases hnet : net.fetch with
    | rejected reason =>
      rw [hnet] at hmem
      simp only [onFetch, catchFinally, List.mem_singleton] at hmem
      subst hmem
      simp [begin, setTranscribing, consoleError]
    | response status hasBody =>
      cases hasBody with
      | false =>
        rw [hnet] at hmem
        simp only [onFetch, catchFinally, List.mem_singleton] at hmem
        subst hmem
        simp [begin, setTranscribing, consoleError]
      | true =>
        rw [hnet] at hmem
        simp only [onFetch] at hmem
        rcases List.mem_cons.mp hmem with rfl | hmem
        · simp [begin, setTranscribing]
        · have := readTrace_keeps env net.reads _ p hmem
          simpa [begin, setTranscribing] using this

/-- Counterexample to C4: on a component that still holds one segment from an earlier run, a
run over a stream of one other segment never empties the sequence, and ends with both
segments in it, not with the new one alone. -/
theorem handleTranscribe_no_reset_counterexample :
    (handleTranscribe sampleBrowser
        { fetch := FetchReply.response 200 true,
          reads := [ReadReply.chunk chunkWorld, ReadReply.done] }
        { transcribing := false, transcripts := [segHello], console := [] }).1.transcripts
      = [segHello, segWorld]
    ∧ (handleTranscribe sampleBrowser
        { fetch := FetchReply.response 200 true,
          reads := [ReadReply.chunk chunkWorld, ReadReply.done] }
        { transcribing := false, transcripts := [segHello], console := [] }).1.transcripts
      ≠ [segWorld]
    ∧ ∀ p ∈ runTrace sampleBrowser
        { fetch := FetchReply.response 200 true,
          reads := [ReadReply.chunk chunkWorld, ReadReply.done] }
        { transcribing := false, transcripts := [segHello], console := [] },
        p.1.transcripts ≠ [] := by
  decide

/-- C4, amended.  `handleTranscribe` never resets the sequence: whatever the sequence held
before the call is a prefix of it in every state of the run, and after a run over chunks that
parse, closed cleanly, the sequence is the prior sequence followed by the new segments. -/
theorem handleTranscribe_keeps_prior (env : Browser Value) (status : Nat)
    (chunks : List Bytes) (segs : List Value) (w : World Value)
    (hvalid : parseAll env chunks = segs.map Except.ok) :
    (handleTranscribe env
        { fetch := FetchReply.response status true,
          reads := deliver chunks ++ [ReadReply.done] } w).1.transcripts
      = w.transcripts ++ segs
    ∧ ∀ p ∈ runTrace env
        { fetch := FetchReply.response status true,
          reads := deliver chunks ++ [ReadReply.done] } w,
        w.transcripts <+: p.1.transcripts := by
  refine ⟨?_, runTrace_keeps env _ w⟩
  rw [handleTranscribe_response, readLoop_deliver env chunks segs _ _ hvalid]
  simp [readLoop, onRead, finallyOnly, setTranscribing]

/-- Witness of the amended C4: a second run on a component that holds one segment. -/
theorem handleTranscribe_keeps_prior_witness :
    parseAll sampleBrowser [chunkWorld] = [segWorld].map Except.ok
    ∧ (handleTranscribe sampleBrowser
        { fetch := FetchReply.response 200 true,
          reads := deliver [chunkWorld] ++ [ReadReply.done] }
        { transcribing := false, transcripts := [segHello], console := [] }).1.transcripts
      = [segHello] ++ [segWorld] :=
  ⟨rfl,
    (handleTranscribe_keeps_prior sampleBrowser 200 [chunkWorld] [segWorld]
      { transcribing := false, transcripts := [segHello], console := [] } rfl).1⟩

end Runs

/-! ## Overlapping invocations -/

section Overlap

variable {Value : Type}

/-- Events addressed to an invocation that has returned change nothing. -/
theorem Sys.run_reads_returned (env : Browser Value) (reads : List ReadReply)
    (w : World Value) (l : Option Pc) :
    Sys.run env { world := w, earlier := some Pc.returned, later := l }
        (reads.map (Ev.readReply CallId.earlier))
      = { world := w, earlier := some Pc.returned, later := l } := by
  induction reads with
  | nil => rfl
  | cons r rest ih =>
    simp only [Sys.run, List.map_cons, List.foldl_cons] at ih ⊢
    simpa [Sys.step, Sys.pcOf] using ih

/-- The read loop of one invocation, seen in the event model. -/
theorem Sys.run_reads (env : Browser Value) (reads : List ReadReply)
    (w : World Value) (l : Option Pc) :
    Sys.run env { world := w, earlier := some Pc.awaitRead, later := l }
        (reads.map (Ev.readReply CallId.earlier))
      = { world := (readLoop env reads w).1, earlier := some (readLoop env reads w).2,
          later := l } := by
  induction reads generalizing w with
  | nil => rfl
  | cons r rest ih =>
    cases hl : leavesLoop env r with
    | false =>
      have hs := onRead_stays env w hl
      have := ih (onRead env r w).1
      simp only [Sys.run, List.map_cons, List.foldl_cons] at this ⊢
      rw [readLoop, hs]
      simp only [Sys.step, Sys.pcOf, Sys.advance]
      rw [hs]
      exact this
    | true =>
      have hs := onRead_leaves env w hl
      have := Sys.run_reads_returned env rest (onRead env r w).1 l
      simp only [Sys.run, List.map_cons, List.foldl_cons] at this ⊢
      rw [readLoop, hs]
      simp only [Sys.step, Sys.pcOf, Sys.advance]
      rw [hs]
      exact this

/-- An invocation that runs with no other one active goes through the event model exactly as
`handleTranscribe` describes it. -/
theorem Sys.run_alone (env : Browser Value) (net : Network) (w : World Value) :
    Sys.run env { world := w, earlier := none, later := none }
        (Ev.invoke CallId.earlier :: Ev.fetchReply CallId.earlier net.fetch
          :: net.reads.map (Ev.readReply CallId.earlier))
      = { world := (handleTranscribe env net w).1,
          earlier := some (handleTranscribe env net w).2, later := none } := by
  obtain ⟨fetch, reads⟩ := net
  cases fetch with
  | rejected reason =>
    have := Sys.run_reads_returned env reads
      (catchFinally (Thrown.fetchRejected reason) (setTranscribing true w)).1 none
    simp only [Sys.run, List.foldl_cons] at this ⊢
    simpa [Sys.step, Sys.pcOf, Sys.advance, begin, onFetch, handleTranscribe, catchFinally]
      using this
  | response status hasBody =>
    cases hasBody with
    | false =>
      have := Sys.run_reads_returned env reads
        (catchFinally Thrown.bodyIsNull (setTranscribing true w)).1 none
      simp only [Sys.run, List.foldl_cons] at this ⊢
      simpa [Sys.step, Sys.pcOf, Sys.advance, begin, onFetch, handleTranscribe, catchFinally]
        using this
    | true =>
      have := Sys.run_reads env reads (setTranscribing true w) none
      simp only [Sys.run, List.foldl_cons] at this ⊢
      simpa [Sys.step, Sys.pcOf, Sys.advance, begin, onFetch, handleTranscribe] using this

/-- Counterexample to C9.  A first call receives one segment; a second call is made and its
stream opens.  The first invocation is still suspended at its read (not cancelled); its next
chunk is appended to the shared sequence after the second call began; and when its stream
closes it takes the flag down although the second invocation is still reading. -/
theorem overlapping_calls_counterexample :
    (Sys.run sampleBrowser Sys.init
        [Ev.invoke CallId.earlier,
         Ev.fetchReply CallId.earlier (FetchReply.response 200 true),
         Ev.readReply CallId.earlier (ReadReply.chunk chunkHello),
         Ev.invoke CallId.later,
         Ev.fetchReply CallId.later (FetchReply.response 200 true)])
      = { world := { transcribing := true, transcripts := [segHello], console := [] },
          earlier := some Pc.awaitRead, later := some Pc.awaitRead }
    ∧ (Sys.run sampleBrowser Sys.init
        [Ev.invoke CallId.earlier,
         Ev.fetchReply CallId.earlier (FetchReply.response 200 true),
         Ev.readReply CallId.earlier (ReadReply.chunk chunkHello),
         Ev.invoke CallId.later,
         Ev.fetchReply CallId.later (FetchReply.response 200 true),
         Ev.readReply CallId.earlier (ReadReply.chunk chunkWorld)])
      = { world := { transcribing := true, transcripts := [segHello, segWorld],
                     console := [] },
          earlier := some Pc.awaitRead, later := some Pc.awaitRead }
    ∧ (Sys.run sampleBrowser Sys.init
        [Ev.invoke CallId.earlier,
         Ev.fetchReply CallId.earlier (FetchReply.response 200 true),
         Ev.readReply CallId.earlier (ReadReply.chunk chunkHello),
         Ev.invoke CallId.later,
         Ev.fetchReply CallId.later (FetchReply.response 200 true),
         Ev.readReply CallId.earlier (ReadReply.chunk chunkWorld),
         Ev.readReply CallId.earlier ReadReply.done])
      = { world := { transcribing := false, transcripts := [segHello, segWorld],
                     console := [] },
          earlier := some Pc.returned, later := some Pc.awaitRead } := by
  decide

/-- C9, amended.  A call of `handleTranscribe` made while an earlier invocation is suspended
at a read cancels nothing.  The earlier invocation stays suspended at its read and the
sequence is untouched by the call; afterwards a chunk of the earlier stream that parses is
still appended to the shared sequence, and the close of the earlier stream takes the flag
down while the new invocation is still in progress. -/
theorem overlapping_calls_not_cancelled (env : Browser Value) (s : Sys Value)
    (c : Bytes) (v : Value)
    (hearlier : s.earlier = some Pc.awaitRead)
    (hlater : s.later = none)
    (hparse : env.jsonParse (env.decode c) = Except.ok v) :
    (Sys.step env s (Ev.invoke CallId.later)).earlier = some Pc.awaitRead
    ∧ (Sys.step env s (Ev.invoke CallId.later)).later = some Pc.awaitFetch
    ∧ (Sys.step env s (Ev.invoke CallId.later)).world.transcripts = s.world.transcripts
    ∧ (Sys.run env s
        [Ev.invoke CallId.later,
         Ev.readReply CallId.earlier (ReadReply.chunk c)]).world.transcripts
      = s.world.transcripts ++ [v]
    ∧ (Sys.run env s
        [Ev.invoke CallId.later, Ev.readReply CallId.earlier ReadReply.done]).world.transcribing
      = false
    ∧ (Sys.run env s
        [Ev.invoke CallId.later, Ev.readReply CallId.earlier ReadReply.done]).later
      = some Pc.awaitFetch := by
  simp [Sys.run, Sys.step, Sys.pcOf, Sys.advance, hearlier, hlater, begin, setTranscribing,
    onRead, hparse, appendTranscript, finallyOnly]

/-- Witness of the amended C9: the first call has received one segment when the second call
is made. -/
theorem overlapping_calls_not_cancelled_witness :
    (Sys.run sampleBrowser Sys.init
        [Ev.invoke CallId.earlier,
         Ev.fetchReply CallId.earlier (FetchReply.response 200 true),
         Ev.readReply CallId.earlier (ReadReply.chunk chunkHello)]).earlier
      = some Pc.awaitRead
    ∧ (Sys.run sampleBrowser Sys.init
        [Ev.invoke CallId.earlier,
         Ev.fetchReply CallId.earlier (FetchReply.response 200 true),
         Ev.readReply CallId.earlier (ReadReply.chunk chunkHello)]).later = none
    ∧ sampleBrowser.jsonParse (sampleBrowser.decode chunkWorld) = Except.ok segWorld
    ∧ (Sys.run sampleBrowser
        (Sys.run sampleBrowser Sys.init
          [Ev.invoke CallId.earlier,
           Ev.fetchReply CallId.earlier (FetchReply.response 200 true),
           Ev.readReply CallId.earlier (ReadReply.chunk chunkHello)])
        [Ev.invoke CallId.later,
         Ev.readReply CallId.earlier (ReadReply.chunk chunkWorld)]).world.transcripts
      = (Sys.run sampleBrowser Sys.init
          [Ev.invoke CallId.earlier,
           Ev.fetchReply CallId.earlier (FetchReply.response 200 true),
           Ev.readReply CallId.earlier (ReadReply.chunk chunkHello)]).world.transcripts
        ++ [segWorld] :=
  ⟨rfl, rfl, rfl,
    (overlapping_calls_not_cancelled sampleBrowser
      (Sys.run sampleBrowser Sys.init
        [Ev.invoke CallId.earlier,
         Ev.fetchReply CallId.earlier (FetchReply.response 200 true),
         Ev.readReply CallId.earlier (ReadReply.chunk chunkHello)])
      chunkWorld segWorld rfl rfl rfl).2.2.2.1⟩

end Overlap

end BlayzeWhisper
